import Mathlib

/-!
Verification of the patient-dashboard list-query subsystem.

This file gives a shallow embedding, in Lean, of the repository's core:
the Query Engine and List Controller of
`src/backend/src/controllers/patient.controller.ts` (search filtering,
multi-field stable sorting, pagination, parameter parsing and
validation), the Client List State of
`src/frontend/src/pages/PatientPage.tsx`, the form submission of
`src/frontend/src/components/forms/PatientForm.tsx`, and the
sanitization helper `PatientValidator.sanitizeFormData`.

Modelling conventions:
* JavaScript strings become Lean `String`; `toLowerCase`, `trim`,
  `includes` become `String.toLower`, `String.trim` and an explicit
  substring test.
* Optional / possibly-`undefined` values become `Option`.
* `Array.prototype.sort`, stable per ES2019, is modelled as a stable
  insertion sort driven by the source's three-way comparator.
* `new Date(s).getTime()` is modelled by an ISO `yyyy-mm-dd` parser
  returning a linear time value (`none` plays the role of `NaN`, which
  compares neither smaller nor greater than anything); the model is
  order-faithful for ISO date strings.
* HTTP responses become an explicit result type (`ListResult`).
-/

namespace PatientDashboard

/-- The patient record, after the `id` has been attached by
`getAllPatients` (`IPatient & \x7b id: string \x7d` in the source).
`middleName` is optional in the source interface. -/
structure IPatient where
  id : String
  firstName : String
  middleName : Option String
  lastName : String
  dob : String
  status : String
  city : String
  state : String
  zipCode : String
deriving DecidableEq, Repr

/-- JavaScript string comparison (`<` on strings, compared code unit
by code unit), as a lexicographic comparison of the character lists. -/
def charListLt : List Char → List Char → Bool
  | [], [] => false
  | [], _ :: _ => true
  | _ :: _, [] => false
  | a :: as, b :: bs => if a < b then true else if b < a then false else charListLt as bs

/-- Model of JavaScript `toLowerCase`, applied characterwise to the
string's characters. -/
def lowerStr (s : String) : String := ⟨s.data.map Char.toLower⟩

/-- Model of JavaScript `trim`: remove leading and trailing
whitespace. -/
def trimStr (s : String) : String :=
  ⟨((s.data.dropWhile Char.isWhitespace).reverse.dropWhile Char.isWhitespace).reverse⟩

/-- The numeric value of a run of decimal digit characters. -/
def digitsToNat (ds : List Char) : Nat :=
  ds.foldl (fun a c => a * 10 + (c.toNat - '0'.toNat)) 0

/-- Split a character list at every `-` (the shape of
`String.splitOn "-"`, used by the date model). -/
def splitDash : List Char → List (List Char)
  | [] => [[]]
  | c :: t =>
    match splitDash t with
    | [] => [[c]]
    | r :: rs => if c = '-' then [] :: r :: rs else (c :: r) :: rs

/-- Substring occurrence on character lists: does `n` occur as a
contiguous segment of the second list?  (Backs the model of
JavaScript `String.prototype.includes`.) -/
def occursIn (n : List Char) : List Char → Bool
  | [] => n.isEmpty
  | c :: t => n.isPrefixOf (c :: t) || occursIn n t

/-- Model of JavaScript `hay.includes(needle)`. -/
def strIncludes (hay needle : String) : Bool :=
  occursIn needle.data hay.data

/-- The search predicate of `getAllPatients` (lines 85-92 of the
controller): the lowercased term is looked for in the lowercase of
firstName, lastName, middleName (when present), city, state, status.
`searchLower` is the already-lowercased search term. -/
def matchesSearch (searchLower : String) (p : IPatient) : Bool :=
  strIncludes (lowerStr p.firstName) searchLower ||
  strIncludes (lowerStr p.lastName) searchLower ||
  (match p.middleName with
   | some m => strIncludes (lowerStr m) searchLower
   | none => false) ||
  strIncludes (lowerStr p.city) searchLower ||
  strIncludes (lowerStr p.state) searchLower ||
  strIncludes (lowerStr p.status) searchLower

/-- The search filter of `getAllPatients`: applied only when `search`
is truthy (a non-empty string). -/
def filterPatients (search : String) (ps : List IPatient) : List IPatient :=
  if search == "" then ps else ps.filter (matchesSearch (lowerStr search))

/-- A JavaScript comparison value: the comparator of the source
compares either two strings or two numbers, where `num none` stands
for `NaN`. -/
inductive JSVal where
  | str : String → JSVal
  | num : Option Int → JSVal
deriving DecidableEq, Repr

/-- JavaScript `<` on two values of the same dynamic type. `NaN`
(`num none`) is smaller than nothing; the cross-type cases never arise
because both values of one comparison come from the same `switch`
branch. -/
def jsLt : JSVal → JSVal → Bool
  | .str a, .str b => charListLt a.data b.data
  | .num (some a), .num (some b) => a < b
  | _, _ => false

/-- Model of `new Date(s).getTime()` for ISO `yyyy-mm-dd` strings: a
linear time value, strictly monotone in the calendar date; any other
string yields `none` (`NaN`). -/
def dateGetTime (s : String) : Option Int :=
  match splitDash s.data with
  | [y, m, d] =>
    if y.all Char.isDigit && m.all Char.isDigit && d.all Char.isDigit
        && !y.isEmpty && !m.isEmpty && !d.isEmpty then
      some ((digitsToNat y * 372 + digitsToNat m * 31 + digitsToNat d : Nat) : Int)
    else none
  | _ => none

/-- Raw attribute lookup `a[sortBy] || ''` used by the comparator's
`default` branch: the named attribute's string value, with an absent
attribute (and absent `middleName`) defaulting to the empty string. -/
def rawAttr (p : IPatient) (k : String) : String :=
  if k == "firstName" then p.firstName
  else if k == "middleName" then (p.middleName.getD "")
  else if k == "lastName" then p.lastName
  else if k == "dob" then p.dob
  else if k == "status" then p.status
  else if k == "city" then p.city
  else if k == "state" then p.state
  else if k == "zipCode" then p.zipCode
  else if k == "id" then p.id
  else ""

/-- The derived sort key of `getAllPatients` (the `switch (sortBy)` at
lines 100-120): `name`, `status` and `location` build lowercased
strings, `dob` a time value, and any other field name falls back to
raw attribute lookup (not lowercased). -/
def sortKey (sortBy : String) (p : IPatient) : JSVal :=
  match sortBy with
  | "name" =>
    .str (lowerStr (p.firstName ++ " " ++ (p.middleName.getD "") ++ " " ++ p.lastName))
  | "dob" => .num (dateGetTime p.dob)
  | "status" => .str (lowerStr p.status)
  | "location" => .str (lowerStr (p.city ++ " " ++ p.state ++ " " ++ p.zipCode))
  | k => .str (rawAttr p k)

/-- The three-way comparator of `getAllPatients` (lines 122-124):
`aValue < bValue` gives -1 for `asc` and 1 otherwise; `aValue > bValue`
(equivalently `bValue < aValue` for strings and numbers) gives 1 for
`asc` and -1 otherwise; otherwise 0. -/
def comparator (sortBy sortOrder : String) (a b : IPatient) : Int :=
  let av := sortKey sortBy a
  let bv := sortKey sortBy b
  if jsLt av bv then (if sortOrder == "asc" then -1 else 1)
  else if jsLt bv av then (if sortOrder == "asc" then 1 else -1)
  else 0

/-- Insertion of one element into a list by a three-way comparator:
the element moves right past exactly the elements it compares greater
than.  Building block of the stable-sort model. -/
def insertCmp (c : α → α → Int) (x : α) : List α → List α
  | [] => [x]
  | b :: t => if 0 < c x b then b :: insertCmp c x t else x :: b :: t

/-- Model of `Array.prototype.sort(comparator)`: a stable sort (stable
per ES2019) realised as insertion sort. -/
def stableSort (c : α → α → Int) (l : List α) : List α :=
  l.foldr (insertCmp c) []

/-- The sorting step of `getAllPatients`: sort the (filtered) patient
list with the source's comparator. -/
def sortPatients (sortBy sortOrder : String) (l : List IPatient) : List IPatient :=
  stableSort (comparator sortBy sortOrder) l

/-- Model of JavaScript `parseInt` on a string: skip leading
whitespace, optional sign, then a leading run of decimal digits;
`none` is `NaN`. -/
def jsParseInt (s : String) : Option Int :=
  let cs := s.data.dropWhile Char.isWhitespace
  let signAndRest : Bool × List Char :=
    match cs with
    | '-' :: t => (true, t)
    | '+' :: t => (false, t)
    | t => (false, t)
  let ds := signAndRest.2.takeWhile Char.isDigit
  if ds.isEmpty then none
  else
    let n : Nat := ds.foldl (fun acc c => acc * 10 + (c.toNat - '0'.toNat)) 0
    some (if signAndRest.1 then -(n : Int) else (n : Int))

/-- Model of `parseInt(v) || d` on an optional query parameter: both a
failed parse (`NaN`) and a parse result of `0` (falsy) fall back to
the default. -/
def parseIntOr (v : Option String) (d : Int) : Int :=
  match v.bind jsParseInt with
  | none => d
  | some n => if n = 0 then d else n

/-- Model of `(v as string) || d` on an optional query parameter: an
absent parameter and the empty string (falsy) fall back to the
default. -/
def strOr (v : Option String) (d : String) : String :=
  match v with
  | none => d
  | some s => if s == "" then d else s

/-- The raw query parameters of a List request, each possibly absent. -/
structure RawQuery where
  page : Option String
  limit : Option String
  sortBy : Option String
  sortOrder : Option String
  search : Option String
deriving Repr

/-- The pagination metadata object assembled by `getAllPatients`. -/
structure PaginationInfo where
  currentPage : Nat
  totalPages : Nat
  totalPatients : Nat
  limit : Nat
  hasNextPage : Bool
  hasPreviousPage : Bool
deriving DecidableEq, Repr

/-- Outcome of a List request: an HTTP error (status and message) or
the page of patients with its pagination metadata. -/
inductive ListResult where
  | error : Nat → String → ListResult
  | ok : List IPatient → PaginationInfo → ListResult
deriving DecidableEq, Repr

/-- `Math.ceil(totalPatients / limit)` on naturals. -/
def totalPagesNat (n limit : Nat) : Nat := (n + limit - 1) / limit

/-- The filtered-and-sorted full result set of a List request (the
`patients` array of the source just before pagination). -/
def filteredSorted (records : List IPatient) (search sortBy sortOrder : String) :
    List IPatient :=
  sortPatients sortBy sortOrder (filterPatients search records)

/-- `patients.slice((page-1)*limit, page*limit)`: the 1-based page
slice, clamped to the available indices. -/
def pageSlice (l : List α) (limit page : Nat) : List α :=
  (l.drop ((page - 1) * limit)).take limit

/-- The List Controller operation `getAllPatients`, operating on the
full collection fetched from the store: parameter parsing with
defaults, validation, search filter, stable sort, pagination, and the
final page-beyond-total check. -/
def getAllPatients (records : List IPatient) (q : RawQuery) : ListResult :=
  let page : Int := parseIntOr q.page 1
  let limit : Int := parseIntOr q.limit 10
  let sortBy : String := strOr q.sortBy "firstName"
  let sortOrder : String := strOr q.sortOrder "asc"
  let search : String := strOr q.search ""
  if page < 1 then .error 400 "Page must be greater than 0"
  else if limit < 1 ∨ 100 < limit then .error 400 "Limit must be between 1 and 100"
  else
    let sorted := filteredSorted records search sortBy sortOrder
    let p := page.toNat
    let m := limit.toNat
    let totalPatients := sorted.length
    let totalPages := totalPagesNat totalPatients m
    let paginated := pageSlice sorted m p
    if totalPages < p ∧ 0 < totalPages then .error 400 "Page number exceeds total pages"
    else .ok paginated
      { currentPage := p, totalPages := totalPages, totalPatients := totalPatients,
        limit := m, hasNextPage := decide (p < totalPages),
        hasPreviousPage := decide (1 < p) }

/-- The page of patients of a List outcome, when it succeeded. -/
def resPatients : ListResult → Option (List IPatient)
  | .error _ _ => none
  | .ok ps _ => some ps

/-- The pagination metadata of a List outcome, when it succeeded. -/
def resPagination : ListResult → Option PaginationInfo
  | .error _ _ => none
  | .ok _ pg => some pg

/-! ### Client List State (`PatientPage.tsx`) -/

/-- A sort direction of the client list state. -/
inductive SortDir where
  | asc
  | desc
deriving DecidableEq, Repr

/-- The client list state of `PatientPage.tsx`: current page, page
size, sort field and sort direction (the slice relevant to the sort
and pagination transitions). -/
structure ListState where
  currentPage : Nat
  itemsPerPage : Nat
  sortField : String
  sortDirection : SortDir
deriving DecidableEq, Repr

/-- The `handleSort` transition (lines 109-117): clicking the header
of `field` flips the direction when it is already the sort field,
otherwise selects it ascending; the page is always reset to 1. -/
def handleSort (s : ListState) (field : String) : ListState :=
  if s.sortField == field then
    { s with
      sortDirection := if s.sortDirection = SortDir.asc then SortDir.desc else SortDir.asc,
      currentPage := 1 }
  else
    { s with sortField := field, sortDirection := SortDir.asc, currentPage := 1 }

/-- The `handleItemsPerPageChange` transition (lines 104-107): set the
page size and reset the page to 1. -/
def handleItemsPerPageChange (s : ListState) (value : Nat) : ListState :=
  { s with itemsPerPage := value, currentPage := 1 }

/-! ### Patient form submission (`PatientForm.tsx`) and sanitization
(`PatientValidator.sanitizeFormData`) -/

/-- The validated form values (`PatientFormData`): the client-side
shape, with the street under the name `street`. -/
structure PatientFormData where
  firstName : String
  middleName : Option String
  lastName : String
  dob : String
  status : String
  street : String
  city : String
  state : String
  zipCode : String
deriving DecidableEq, Repr

/-- The request body built by `onSubmit` of `PatientForm.tsx` (lines
45-50): all form fields, with `street` renamed to `address`. -/
structure ApiBody where
  firstName : String
  middleName : Option String
  lastName : String
  dob : String
  status : String
  address : String
  city : String
  state : String
  zipCode : String
deriving DecidableEq, Repr

/-- The payload `onSubmit` sends to the API: the form data spread into
a new object, `address` set from `street`, and `street` deleted.  No
other transformation is applied to the field values. -/
def submitPayload (d : PatientFormData) : ApiBody :=
  { firstName := d.firstName, middleName := d.middleName,
    lastName := d.lastName, dob := d.dob, status := d.status,
    address := d.street, city := d.city, state := d.state,
    zipCode := d.zipCode }

/-- `PatientValidator.sanitizeFormData` (lines 193-205 of
`patient.validation.ts`): trims leading/trailing whitespace from every
text field (`dob` and `status` are passed through); an absent
`middleName` becomes the empty string. -/
def sanitizeFormData (d : PatientFormData) : PatientFormData :=
  { firstName := trimStr d.firstName,
    middleName := some (trimStr (d.middleName.getD "")),
    lastName := trimStr d.lastName,
    dob := d.dob,
    status := d.status,
    city := trimStr d.city,
    state := trimStr d.state,
    zipCode := trimStr d.zipCode,
    street := trimStr d.street }

/-! ### Store writes (`createPatient`, `updatePatient`) -/

/-- A stored patient document.  Documents written by `createPatient`
carry the client's `address` field; `middleName` may be absent. -/
structure StoredPatient where
  firstName : String
  middleName : Option String
  lastName : String
  dob : String
  status : String
  address : String
  city : String
  state : String
  zipCode : String
deriving DecidableEq, Repr

/-- The `firebaseData` object literal built by `updatePatient` (lines
224-233): exactly the eight whitelisted fields of the request body —
`address` is not among them. -/
structure FirebaseUpdateData where
  firstName : String
  middleName : Option String
  lastName : String
  dob : String
  status : String
  city : String
  state : String
  zipCode : String
deriving DecidableEq, Repr

/-- `updatePatient`'s conversion of the request body to the object
passed to `updateDoc`. -/
def firebaseData (b : ApiBody) : FirebaseUpdateData :=
  { firstName := b.firstName, middleName := b.middleName,
    lastName := b.lastName, dob := b.dob, status := b.status,
    city := b.city, state := b.state, zipCode := b.zipCode }

/-- Firestore `updateDoc` field-merge semantics (the store
collaborator's documented contract): the fields present in the update
object are overwritten, every other stored field is left unchanged. -/
def updateDoc (old : StoredPatient) (u : FirebaseUpdateData) : StoredPatient :=
  { firstName := u.firstName, middleName := u.middleName,
    lastName := u.lastName, dob := u.dob, status := u.status,
    address := old.address, city := u.city, state := u.state,
    zipCode := u.zipCode }

/-- The document stored by `createPatient` (line 42): the entire
request body, `address` included. -/
def createdDoc (b : ApiBody) : StoredPatient :=
  { firstName := b.firstName, middleName := b.middleName,
    lastName := b.lastName, dob := b.dob, status := b.status,
    address := b.address, city := b.city, state := b.state,
    zipCode := b.zipCode }

/-- The store document after `updatePatient` succeeds on a stored
document `old` with request body `b`. -/
def updatePatientDoc (old : StoredPatient) (b : ApiBody) : StoredPatient :=
  updateDoc old (firebaseData b)

/-! ### Generic facts about the stable-sort model

`insA lt` / `insD lt` are the ascending / descending stable
insertions: `insertCmp` with the source's comparator coincides with
them (for an asymmetric `lt`).  `insDR lt` is the anti-stable
descending insertion from the right; it drives the proof that the
descending sort is the reverse of the ascending sort of the reversed
input. -/

/-- Ascending stable insertion: `x` moves right past exactly the
strictly smaller elements. -/
def insA (lt : α → α → Bool) (x : α) : List α → List α
  | [] => [x]
  | b :: t => if lt b x then b :: insA lt x t else x :: b :: t

/-- Descending stable insertion: `x` moves right past exactly the
strictly larger elements. -/
def insD (lt : α → α → Bool) (x : α) : List α → List α
  | [] => [x]
  | b :: t => if lt x b then b :: insD lt x t else x :: b :: t

/-- Descending anti-stable insertion from the right: `y` is placed
immediately after the rightmost element that is not strictly smaller
than it (at the front when every element is strictly smaller). -/
def insDR (lt : α → α → Bool) (y : α) : List α → List α
  | [] => [y]
  | b :: t => if (t.all fun c => lt c y) && lt b y then y :: b :: t else b :: insDR lt y t

theorem insA_cons (lt : α → α → Bool) (x b : α) (t : List α) :
    insA lt x (b :: t) = if lt b x then b :: insA lt x t else x :: b :: t := rfl

theorem insD_cons (lt : α → α → Bool) (x b : α) (t : List α) :
    insD lt x (b :: t) = if lt x b then b :: insD lt x t else x :: b :: t := rfl

theorem insDR_cons (lt : α → α → Bool) (y b : α) (t : List α) :
    insDR lt y (b :: t) =
      if (t.all fun c => lt c y) && lt b y then y :: b :: t else b :: insDR lt y t := rfl

theorem insD_cons_true {lt : α → α → Bool} {x b : α} (t : List α)
    (h : lt x b = true) : insD lt x (b :: t) = b :: insD lt x t := by
  rw [insD_cons, h]
  rfl

theorem insD_cons_false {lt : α → α → Bool} {x b : α} (t : List α)
    (h : lt x b = false) : insD lt x (b :: t) = x :: b :: t := by
  rw [insD_cons, h]
  rfl

theorem insDR_cons_true {lt : α → α → Bool} {y b : α} {t : List α}
    (h : ((t.all fun c => lt c y) && lt b y) = true) :
    insDR lt y (b :: t) = y :: b :: t := by
  rw [insDR_cons, h]
  rfl

theorem insDR_cons_false {lt : α → α → Bool} {y b : α} {t : List α}
    (h : ((t.all fun c => lt c y) && lt b y) = false) :
    insDR lt y (b :: t) = b :: insDR lt y t := by
  rw [insDR_cons, h]
  rfl

theorem insDR_of_all {lt : α → α → Bool} {y : α} :
    ∀ {t : List α}, t.all (fun c => lt c y) = true → insDR lt y t = y :: t
  | [], _ => rfl
  | b :: t, h => by
    rw [List.all_cons, Bool.and_eq_true] at h
    exact insDR_cons_true (by rw [h.1, h.2, Bool.and_true])

theorem insA_append_singleton (lt : α → α → Bool) (y b : α) :
    ∀ m : List α, insA lt y (m ++ [b]) =
      if m.all (fun c => lt c y) then m ++ (if lt b y then [b, y] else [y, b])
      else insA lt y m ++ [b]
  | [] => by
    simp only [List.all_nil, if_true, List.nil_append]
    cases h : lt b y <;> simp [insA, h]
  | a :: m => by
    cases hay : lt a y
    · simp only [List.cons_append, insA, hay, Bool.false_eq_true, if_false,
        List.all_cons, Bool.false_and]
      rfl
    · rw [List.cons_append,
        show insA lt y (a :: (m ++ [b])) = a :: insA lt y (m ++ [b]) by simp [insA, hay],
        insA_append_singleton lt y b m, List.all_cons, hay, Bool.true_and]
      cases hall : m.all (fun c => lt c y) <;> simp [insA, hay]

theorem insDR_eq_reverse_insA (lt : α → α → Bool) (y : α) :
    ∀ s : List α, insDR lt y s = (insA lt y s.reverse).reverse
  | [] => rfl
  | b :: s => by
    rw [List.reverse_cons, insA_append_singleton lt y b s.reverse, List.all_reverse]
    cases hall : s.all (fun c => lt c y)
    · rw [if_neg (by exact Bool.false_ne_true)]
      rw [insDR_cons_false (by rw [hall, Bool.false_and])]
      rw [insDR_eq_reverse_insA lt y s]
      simp
    · rw [if_pos rfl]
      cases hby : lt b y
      · rw [insDR_cons_false (by rw [hby, Bool.and_false]), insDR_of_all hall]
        simp
      · rw [insDR_cons_true (by rw [hall, hby, Bool.and_true])]
        simp

theorem all_insD (lt : α → α → Bool) (p : α → Bool) (x : α) :
    ∀ t : List α, (insD lt x t).all p = (p x && t.all p)
  | [] => by simp [insD]
  | b :: t => by
    cases h : lt x b
    · rw [insD_cons_false t h, List.all_cons]
    · rw [insD_cons_true t h, List.all_cons, List.all_cons, all_insD lt p x t]
      cases p b <;> cases p x <;> simp

/-- Inserting stably from the left commutes with inserting
anti-stably from the right, provided `lt` is transitive. -/
theorem insD_insDR_comm (lt : α → α → Bool)
    (htrans : ∀ a b c, lt a b = true → lt b c = true → lt a c = true)
    (x a : α) : ∀ V : List α, insD lt x (insDR lt a V) = insDR lt a (insD lt x V)
  | [] => by
    cases h : lt x a <;> simp [insD, insDR, h]
  | b :: t => by
    cases hxb : lt x b
    · rw [insD_cons_false t hxb]
      cases hcond : (t.all fun c => lt c a) && lt b a
      · have e2 : insDR lt a (b :: t) = b :: insDR lt a t := insDR_cons_false hcond
        have e3 : (((b :: t).all fun c => lt c a) && lt x a) = false := by
          rw [List.all_cons]
          cases hba : lt b a
          · rw [Bool.false_and, Bool.false_and]
          · cases hta : (t.all fun c => lt c a)
            · rw [Bool.and_false, Bool.false_and]
            · rw [hba, hta] at hcond
              exact absurd hcond (by simp)
        rw [e2, insDR_cons_false e3, e2, insD_cons_false (insDR lt a t) hxb]
      · have hparts := hcond
        rw [Bool.and_eq_true] at hparts
        have e2 : insDR lt a (b :: t) = a :: b :: t := insDR_cons_true hcond
        rw [e2]
        cases hxa : lt x a
        · rw [insD_cons_false (b :: t) hxa]
          have e3 : (((b :: t).all fun c => lt c a) && lt x a) = false := by
            rw [hxa, Bool.and_false]
          rw [insDR_cons_false e3, e2]
        · rw [insD_cons_true (b :: t) hxa, insD_cons_false t hxb]
          have e3 : (((b :: t).all fun c => lt c a) && lt x a) = true := by
            rw [List.all_cons, hparts.1, hparts.2, hxa, Bool.and_true, Bool.and_true]
          rw [insDR_cons_true e3]
    · rw [insD_cons_true t hxb]
      cases hcond : (t.all fun c => lt c a) && lt b a
      · have e2 : insDR lt a (b :: t) = b :: insDR lt a t := insDR_cons_false hcond
        rw [e2]
        have e3 : (((insD lt x t).all fun c => lt c a) && lt b a) = false := by
          rw [all_insD]
          cases hba : lt b a
          · rw [Bool.and_false]
          · cases hta : (t.all fun c => lt c a)
            · rw [Bool.and_false, Bool.false_and]
            · rw [hba, hta] at hcond
              exact absurd hcond (by simp)
        rw [insDR_cons_false e3, insD_cons_true (insDR lt a t) hxb,
          insD_insDR_comm lt htrans x a t]
      · have hparts := hcond
        rw [Bool.and_eq_true] at hparts
        have e2 : insDR lt a (b :: t) = a :: b :: t := insDR_cons_true hcond
        rw [e2]
        have hxa : lt x a = true := htrans x b a hxb hparts.2
        rw [insD_cons_true (b :: t) hxa, insD_cons_true t hxb]
        have e3 : (((insD lt x t).all fun c => lt c a) && lt b a) = true := by
          rw [all_insD, hxa, hparts.1, hparts.2, Bool.and_true, Bool.true_and]
        rw [insDR_cons_true e3]

theorem foldr_insA_reverse (lt : α → α → Bool)
    (htrans : ∀ a b c, lt a b = true → lt b c = true → lt a c = true) (x : α) :
    ∀ m : List α, (m.foldr (insA lt) [x]).reverse = insD lt x (m.foldr (insA lt) []).reverse
  | [] => rfl
  | a :: m => by
    simp only [List.foldr_cons]
    have h1 : (insA lt a (m.foldr (insA lt) [x])).reverse
        = insDR lt a (m.foldr (insA lt) [x]).reverse := by
      rw [insDR_eq_reverse_insA, List.reverse_reverse]
    have h2 : (insA lt a (m.foldr (insA lt) [])).reverse
        = insDR lt a (m.foldr (insA lt) []).reverse := by
      rw [insDR_eq_reverse_insA, List.reverse_reverse]
    rw [h1, h2, foldr_insA_reverse lt htrans x m, insD_insDR_comm lt htrans x a]

/-- The descending stable insertion sort is the reverse of the
ascending stable insertion sort of the reversed input. -/
theorem foldr_insD_eq_reverse (lt : α → α → Bool)
    (htrans : ∀ a b c, lt a b = true → lt b c = true → lt a c = true) :
    ∀ l : List α, l.foldr (insD lt) [] = (l.reverse.foldr (insA lt) []).reverse
  | [] => rfl
  | x :: l => by
    simp only [List.foldr_cons, List.reverse_cons, List.foldr_append, List.foldr_cons,
      List.foldr_nil]
    rw [show (insA lt x [] : List α) = [x] from rfl]
    rw [foldr_insA_reverse lt htrans x l.reverse, foldr_insD_eq_reverse lt htrans l]

/-! ### The source comparator as an `insA`/`insD` instance -/

theorem insertCmp_cons (c : α → α → Int) (x b : α) (t : List α) :
    insertCmp c x (b :: t) =
      if 0 < c x b then b :: insertCmp c x t else x :: b :: t := rfl

theorem insertCmp_eq_insA (c : α → α → Int) (lt : α → α → Bool)
    (h : ∀ x b, 0 < c x b ↔ lt b x = true) (x : α) :
    ∀ l, insertCmp c x l = insA lt x l
  | [] => rfl
  | b :: t => by
    rw [insertCmp_cons, insA_cons, insertCmp_eq_insA c lt h x t]
    by_cases hg : 0 < c x b
    · rw [if_pos hg, (h x b).1 hg, if_pos rfl]
    · have hf : lt b x = false := by
        cases hlt : lt b x
        · rfl
        · exact absurd ((h x b).2 hlt) hg
      rw [if_neg hg, hf, if_neg (by exact Bool.false_ne_true)]

theorem insertCmp_eq_insD (c : α → α → Int) (lt : α → α → Bool)
    (h : ∀ x b, 0 < c x b ↔ lt x b = true) (x : α) :
    ∀ l, insertCmp c x l = insD lt x l
  | [] => rfl
  | b :: t => by
    rw [insertCmp_cons, insD_cons, insertCmp_eq_insD c lt h x t]
    by_cases hg : 0 < c x b
    · rw [if_pos hg, (h x b).1 hg, if_pos rfl]
    · have hf : lt x b = false := by
        cases hlt : lt x b
        · rfl
        · exact absurd ((h x b).2 hlt) hg
      rw [if_neg hg, hf, if_neg (by exact Bool.false_ne_true)]

theorem charListLt_irrefl : ∀ l : List Char, charListLt l l = false
  | [] => rfl
  | a :: as => by
    simp [charListLt, lt_irrefl a, charListLt_irrefl as]

theorem charListLt_nil : ∀ l : List Char, charListLt l [] = false
  | [] => rfl
  | _ :: _ => rfl

theorem charListLt_asymm :
    ∀ l1 l2 : List Char, charListLt l1 l2 = true → charListLt l2 l1 = false
  | [], [] => by simp [charListLt]
  | [], _ :: _ => by simp [charListLt]
  | _ :: _, [] => by simp [charListLt]
  | a :: as, b :: bs => by
    simp only [charListLt]
    by_cases h1 : a < b
    · simp [h1, lt_asymm h1]
    · by_cases h2 : b < a
      · simp [h1, h2]
      · simp [h1, h2]
        exact charListLt_asymm as bs

theorem charListLt_trans :
    ∀ l1 l2 l3 : List Char, charListLt l1 l2 = true → charListLt l2 l3 = true →
      charListLt l1 l3 = true
  | _, l2, [] => by
    intro _ h2
    rw [charListLt_nil l2] at h2
    exact absurd h2 (by simp)
  | [], _, _ :: _ => by
    intro _ _
    rfl
  | a :: as, [], c :: cs => by
    intro h1 _
    rw [charListLt_nil (a :: as)] at h1
    exact absurd h1 (by simp)
  | a :: as, b :: bs, c :: cs => by
    intro h1 h2
    simp only [charListLt] at h1 h2 ⊢
    by_cases hab : a < b
    · by_cases hbc : b < c
      · simp [lt_trans hab hbc]
      · by_cases hcb : c < b
        · rw [if_neg hbc, if_pos hcb] at h2
          exact absurd h2 (by simp)
        · have hbc' : b = c := le_antisymm (le_of_not_lt hcb) (le_of_not_lt hbc)
          subst hbc'
          simp [hab]
    · by_cases hba : b < a
      · rw [if_neg hab, if_pos hba] at h1
        exact absurd h1 (by simp)
      · have hab' : a = b := le_antisymm (le_of_not_lt hba) (le_of_not_lt hab)
        subst hab'
        rw [if_neg hab, if_neg hba] at h1
        by_cases hbc : a < c
        · simp [hbc]
        · by_cases hcb : c < a
          · rw [if_neg hbc, if_pos hcb] at h2
            exact absurd h2 (by simp)
          · rw [if_neg hbc, if_neg hcb] at h2 ⊢
            exact charListLt_trans as bs cs h1 h2

theorem jsLt_irrefl (v : JSVal) : jsLt v v = false := by
  cases v with
  | str a => simp [jsLt, charListLt_irrefl]
  | num o => cases o <;> simp [jsLt]

theorem jsLt_asymm (u v : JSVal) (h : jsLt u v = true) : jsLt v u = false := by
  cases u with
  | str a =>
    cases v with
    | str b => exact charListLt_asymm a.data b.data h
    | num ob => simp [jsLt] at h
  | num oa =>
    cases v with
    | str b => simp [jsLt] at h
    | num ob =>
      cases oa with
      | none => simp [jsLt] at h
      | some a =>
        cases ob with
        | none => simp [jsLt] at h
        | some b =>
          simp only [jsLt, decide_eq_true_eq] at h
          simp [jsLt]
          omega

theorem jsLt_trans (u v w : JSVal) (h1 : jsLt u v = true) (h2 : jsLt v w = true) :
    jsLt u w = true := by
  cases u with
  | str a =>
    cases v with
    | str b =>
      cases w with
      | str c => exact charListLt_trans a.data b.data c.data h1 h2
      | num oc => simp [jsLt] at h2
    | num ob => simp [jsLt] at h1
  | num oa =>
    cases v with
    | str b => simp [jsLt] at h1
    | num ob =>
      cases w with
      | str c => simp [jsLt] at h2
      | num oc =>
        cases oa with
        | none => simp [jsLt] at h1
        | some a =>
          cases ob with
          | none => simp [jsLt] at h1
          | some b =>
            cases oc with
            | none => simp [jsLt] at h2
            | some c =>
              simp only [jsLt, decide_eq_true_eq] at h1 h2 ⊢
              omega

/-- The strict ordering on patients induced by a sort field's derived
key. -/
def patLt (sortBy : String) (a b : IPatient) : Bool :=
  jsLt (sortKey sortBy a) (sortKey sortBy b)

theorem patLt_trans (sb : String) (a b c : IPatient)
    (h1 : patLt sb a b = true) (h2 : patLt sb b c = true) : patLt sb a c = true :=
  jsLt_trans _ _ _ h1 h2

theorem comparator_asc_pos (sb : String) (x b : IPatient) :
    0 < comparator sb "asc" x b ↔ patLt sb b x = true := by
  unfold comparator patLt
  cases h1 : jsLt (sortKey sb x) (sortKey sb b)
  · cases h2 : jsLt (sortKey sb b) (sortKey sb x) <;> simp [h1, h2]
  · have h3 := jsLt_asymm _ _ h1
    simp [h1, h3]

theorem comparator_desc_pos (sb : String) (x b : IPatient) :
    0 < comparator sb "desc" x b ↔ patLt sb x b = true := by
  unfold comparator patLt
  cases h1 : jsLt (sortKey sb x) (sortKey sb b)
  · cases h2 : jsLt (sortKey sb b) (sortKey sb x) <;> simp [h1, h2]
  · simp [h1]

theorem sortPatients_asc_eq (sb : String) :
    ∀ l : List IPatient, sortPatients sb "asc" l = l.foldr (insA (patLt sb)) []
  | [] => rfl
  | x :: l => by
    rw [show sortPatients sb "asc" (x :: l)
        = insertCmp (comparator sb "asc") x (sortPatients sb "asc" l) from rfl,
      sortPatients_asc_eq sb l, List.foldr_cons,
      insertCmp_eq_insA _ _ (comparator_asc_pos sb) x]

theorem sortPatients_desc_eq (sb : String) :
    ∀ l : List IPatient, sortPatients sb "desc" l = l.foldr (insD (patLt sb)) []
  | [] => rfl
  | x :: l => by
    rw [show sortPatients sb "desc" (x :: l)
        = insertCmp (comparator sb "desc") x (sortPatients sb "desc" l) from rfl,
      sortPatients_desc_eq sb l, List.foldr_cons,
      insertCmp_eq_insD _ _ (comparator_desc_pos sb) x]

/-- Descending sort is the reverse of the ascending sort of the
reversed input. -/
theorem sortPatients_desc_reverse (sb : String) (l : List IPatient) :
    sortPatients sb "desc" l = (sortPatients sb "asc" l.reverse).reverse := by
  rw [sortPatients_desc_eq, sortPatients_asc_eq,
    foldr_insD_eq_reverse (patLt sb) (patLt_trans sb)]

/-! ### Stability and permutation of the stable-sort model -/

theorem filter_insertCmp (c : α → α → Int) {K : Type v} [DecidableEq K] (key : α → K)
    (hkey : ∀ x b, key x = key b → ¬ 0 < c x b) (k : K) (x : α) :
    ∀ l, (insertCmp c x l).filter (fun y => decide (key y = k))
      = if key x = k then x :: l.filter (fun y => decide (key y = k))
        else l.filter (fun y => decide (key y = k))
  | [] => by
    by_cases h : key x = k <;> simp [insertCmp, h]
  | b :: t => by
    by_cases hg : 0 < c x b
    · rw [insertCmp_cons, if_pos hg]
      by_cases hxk : key x = k
      · have hb : ¬ key b = k := fun hb => hkey x b (hxk.trans hb.symm) hg
        simp [List.filter_cons, hxk, hb, filter_insertCmp c key hkey k x t]
      · simp [List.filter_cons, hxk, filter_insertCmp c key hkey k x t]
    · rw [insertCmp_cons, if_neg hg]
      by_cases hxk : key x = k <;> simp [List.filter_cons, hxk]

theorem filter_stableSort (c : α → α → Int) {K : Type v} [DecidableEq K] (key : α → K)
    (hkey : ∀ x b, key x = key b → ¬ 0 < c x b) (k : K) :
    ∀ l, (stableSort c l).filter (fun y => decide (key y = k))
      = l.filter (fun y => decide (key y = k))
  | [] => rfl
  | x :: l => by
    rw [show stableSort c (x :: l) = insertCmp c x (stableSort c l) from rfl,
      filter_insertCmp c key hkey k x (stableSort c l),
      filter_stableSort c key hkey k l]
    by_cases hxk : key x = k <;> simp [List.filter_cons, hxk]

theorem insertCmp_perm (c : α → α → Int) (x : α) :
    ∀ l, (insertCmp c x l).Perm (x :: l)
  | [] => List.Perm.refl _
  | b :: t => by
    rw [insertCmp_cons]
    by_cases hg : 0 < c x b
    · rw [if_pos hg]
      exact ((insertCmp_perm c x t).cons b).trans (List.Perm.swap x b t)
    · rw [if_neg hg]

theorem stableSort_perm (c : α → α → Int) :
    ∀ l : List α, (stableSort c l).Perm l
  | [] => List.Perm.refl _
  | x :: l =>
    (insertCmp_perm c x (stableSort c l)).trans ((stableSort_perm c l).cons x)

theorem comparator_key_eq (sb ord : String) (x b : IPatient)
    (h : sortKey sb x = sortKey sb b) : ¬ 0 < comparator sb ord x b := by
  unfold comparator
  simp only [h, jsLt_irrefl]
  simp

/-- Stability of the sort: restricted to the records carrying any one
derived key value, the sorted output is exactly the input sequence. -/
theorem sortPatients_stable (sb ord : String) (k : JSVal) (l : List IPatient) :
    (sortPatients sb ord l).filter (fun p => decide (sortKey sb p = k))
      = l.filter (fun p => decide (sortKey sb p = k)) :=
  filter_stableSort _ _ (fun x b h => comparator_key_eq sb ord x b h) k l

theorem sortPatients_perm (sb ord : String) (l : List IPatient) :
    (sortPatients sb ord l).Perm l :=
  stableSort_perm _ l

/-! ### Pagination: the page slices partition the result list -/

theorem totalPagesNat_zero (m : Nat) (hm : 1 ≤ m) : totalPagesNat 0 m = 0 := by
  unfold totalPagesNat
  exact Nat.div_eq_of_lt (by omega)

theorem totalPagesNat_succ (n m : Nat) (hm : 1 ≤ m) (hn : 1 ≤ n) :
    totalPagesNat n m = (n - 1) / m + 1 := by
  unfold totalPagesNat
  rw [show n + m - 1 = (n - 1) + m by omega, Nat.add_div_right _ (by omega)]

theorem totalPagesNat_sub (n m : Nat) (hm : 1 ≤ m) (hn : 1 ≤ n) :
    totalPagesNat (n - m) m = (n - 1) / m := by
  by_cases h : n ≤ m
  · rw [show n - m = 0 by omega, totalPagesNat_zero m hm]
    exact (Nat.div_eq_of_lt (by omega)).symm
  · generalize hq : n - 1 - m = q
    have h1 : n - 1 = q + m := by omega
    unfold totalPagesNat
    rw [show n - m + m - 1 = q + m by omega, h1, Nat.add_div_right _ (by omega)]

theorem pageSlice_one (l : List α) (m : Nat) : pageSlice l m 1 = l.take m := by
  unfold pageSlice
  norm_num

theorem pageSlice_drop (l : List α) (m i : Nat) :
    pageSlice (l.drop m) m (i + 1) = pageSlice l m (i + 2) := by
  unfold pageSlice
  rw [show i + 1 - 1 = i from rfl, show i + 2 - 1 = i + 1 from rfl, List.drop_drop,
    show m + i * m = (i + 1) * m by ring]

theorem pageSlices_flatten {α : Type u} (m : Nat) (hm : 1 ≤ m) :
    ∀ (n : Nat) (l : List α), l.length = n →
      ((List.range (totalPagesNat l.length m)).map
        (fun i => pageSlice l m (i + 1))).flatten = l := by
  intro n
  induction n using Nat.strong_induction_on with
  | _ n ih =>
    intro l hl
    cases l with
    | nil => simp [totalPagesNat_zero m hm]
    | cons a t =>
      have hn : 1 ≤ (a :: t).length := by simp
      have hlen : t.length + 1 = n := by simpa using hl
      rw [totalPagesNat_succ _ m hm hn, List.range_succ_eq_map, List.map_cons,
        List.map_map, List.flatten_cons, pageSlice_one]
      have hmap : (List.range (((a :: t).length - 1) / m)).map
          ((fun i => pageSlice (a :: t) m (i + 1)) ∘ Nat.succ)
          = (List.range (totalPagesNat ((a :: t).drop m).length m)).map
            (fun i => pageSlice ((a :: t).drop m) m (i + 1)) := by
        rw [List.length_drop, totalPagesNat_sub _ m hm hn]
        refine List.map_congr_left ?_
        intro i _
        show pageSlice (a :: t) m (i + 1 + 1) = pageSlice ((a :: t).drop m) m (i + 1)
        rw [pageSlice_drop]
      rw [hmap, ih ((a :: t).drop m).length (by simp; omega) _ rfl,
        List.take_append_drop]

theorem pageSlices_length_sum {α : Type u} (m : Nat) (hm : 1 ≤ m) (l : List α) :
    ((List.range (totalPagesNat l.length m)).map
      (fun i => (pageSlice l m (i + 1)).length)).sum = l.length := by
  have h := congrArg List.length (pageSlices_flatten m hm l.length l rfl)
  rw [List.length_flatten, List.map_map] at h
  exact h

theorem pageSlice_length_card (l : List α) (m i : Nat) :
    (pageSlice l m (i + 1)).length
      = (Finset.Ico (i * m) (min ((i + 1) * m) l.length)).card := by
  unfold pageSlice
  rw [Nat.add_sub_cancel, List.length_take, List.length_drop, Nat.card_Ico,
    show (i + 1) * m = i * m + m by ring]
  omega

theorem pageIdx_disjoint (n m i j : Nat) (hij : i < j) :
    Disjoint (Finset.Ico (i * m) (min ((i + 1) * m) n))
      (Finset.Ico (j * m) (min ((j + 1) * m) n)) := by
  rw [Finset.disjoint_left]
  intro x hx1 hx2
  rw [Finset.mem_Ico] at hx1 hx2
  have h1 : (i + 1) * m ≤ j * m := Nat.mul_le_mul_right m hij
  have h2 := Nat.min_le_left ((i + 1) * m) n
  omega

/-! ### Controller-level helper lemmas -/

theorem totalPagesNat_eq_zero_iff (n m : Nat) (hm : 1 ≤ m) :
    totalPagesNat n m = 0 ↔ n = 0 := by
  unfold totalPagesNat
  rw [Nat.div_eq_zero_iff (by omega)]
  omega

/-- Under valid pagination parameters, `getAllPatients` is the
filter/sort/paginate pipeline followed by the page-beyond-total
check. -/
theorem getAllPatients_valid_eq (records : List IPatient) (q : RawQuery)
    (hp : 1 ≤ parseIntOr q.page 1) (hl1 : 1 ≤ parseIntOr q.limit 10)
    (hl2 : parseIntOr q.limit 10 ≤ 100) :
    getAllPatients records q =
      if totalPagesNat (filteredSorted records (strOr q.search "") (strOr q.sortBy "firstName")
            (strOr q.sortOrder "asc")).length (parseIntOr q.limit 10).toNat
          < (parseIntOr q.page 1).toNat
        ∧ 0 < totalPagesNat (filteredSorted records (strOr q.search "")
            (strOr q.sortBy "firstName") (strOr q.sortOrder "asc")).length
            (parseIntOr q.limit 10).toNat
      then ListResult.error 400 "Page number exceeds total pages"
      else ListResult.ok
        (pageSlice (filteredSorted records (strOr q.search "") (strOr q.sortBy "firstName")
          (strOr q.sortOrder "asc")) (parseIntOr q.limit 10).toNat (parseIntOr q.page 1).toNat)
        { currentPage := (parseIntOr q.page 1).toNat,
          totalPages := totalPagesNat (filteredSorted records (strOr q.search "")
            (strOr q.sortBy "firstName") (strOr q.sortOrder "asc")).length
            (parseIntOr q.limit 10).toNat,
          totalPatients := (filteredSorted records (strOr q.search "")
            (strOr q.sortBy "firstName") (strOr q.sortOrder "asc")).length,
          limit := (parseIntOr q.limit 10).toNat,
          hasNextPage := decide ((parseIntOr q.page 1).toNat
            < totalPagesNat (filteredSorted records (strOr q.search "")
              (strOr q.sortBy "firstName") (strOr q.sortOrder "asc")).length
              (parseIntOr q.limit 10).toNat),
          hasPreviousPage := decide (1 < (parseIntOr q.page 1).toNat) } := by
  simp only [getAllPatients]
  rw [if_neg (by omega), if_neg (by omega)]

/-- A comparator that always answers "equal" leaves the list
untouched. -/
theorem stableSort_of_cmp_zero (c : α → α → Int) (h : ∀ x b, c x b = 0) :
    ∀ l, stableSort c l = l
  | [] => rfl
  | x :: t => by
    rw [show stableSort c (x :: t) = insertCmp c x (stableSort c t) from rfl,
      stableSort_of_cmp_zero c h t]
    cases t with
    | nil => rfl
    | cons b t2 => rw [insertCmp_cons, if_neg (by rw [h x b]; omega)]

/-- Any `sortBy` other than the four named cases falls to the raw
attribute lookup. -/
theorem sortKey_default (s : String) (p : IPatient)
    (h1 : s ≠ "name") (h2 : s ≠ "dob") (h3 : s ≠ "status") (h4 : s ≠ "location") :
    sortKey s p = .str (rawAttr p s) := by
  unfold sortKey
  split <;> simp_all

/-- Raw attribute lookup of a name that is none of the record's
attributes yields the empty string. -/
theorem rawAttr_unknown (s : String) (p : IPatient)
    (hs : s ∉ ["firstName", "middleName", "lastName", "dob", "status",
      "city", "state", "zipCode", "id"]) :
    rawAttr p s = "" := by
  simp only [List.mem_cons, not_or] at hs
  obtain ⟨n1, n2, n3, n4, n5, n6, n7, n8, n9, -⟩ := hs
  simp [rawAttr, n1, n2, n3, n4, n5, n6, n7, n8, n9]

/-- For a `sortBy` that is neither a named case nor an attribute, all
records compare equal, and the sort leaves the list untouched. -/
theorem sortPatients_unknown_id (s ord : String) (l : List IPatient)
    (hs : s ∉ ["name", "dob", "status", "location", "firstName", "middleName",
      "lastName", "city", "state", "zipCode", "id"]) :
    sortPatients s ord l = l := by
  have hmem : ∀ a : IPatient, sortKey s a = .str "" := by
    intro a
    simp only [List.mem_cons, not_or] at hs
    rw [sortKey_default s a hs.1 hs.2.1 hs.2.2.1 hs.2.2.2.1,
      rawAttr_unknown s a (by simp_all)]
  refine stableSort_of_cmp_zero _ (fun a b => ?_) l
  unfold comparator
  rw [hmem a, hmem b]
  simp [jsLt_irrefl]

/-! ### Search filter: data-level string lemmas -/

theorem lowerStr_data (s : String) : (lowerStr s).data = s.data.map Char.toLower := rfl

theorem data_empty_string : ("" : String).data = [] := rfl

theorem lowerStr_append (a b : String) :
    lowerStr (a ++ b) = lowerStr a ++ lowerStr b := by
  apply String.ext
  rw [String.data_append, lowerStr_data, String.data_append, lowerStr_data, lowerStr_data,
    List.map_append]

/-- A non-empty term does not occur in the empty string. -/
theorem lowerStr_empty : lowerStr "" = "" := rfl

theorem strIncludes_empty_hay (s : String) (hs : s ≠ "") :
    strIncludes "" (lowerStr s) = false := by
  show occursIn (lowerStr s).data ("" : String).data = false
  rw [data_empty_string]
  show ((lowerStr s).data).isEmpty = false
  rw [lowerStr_data]
  cases hd : s.data with
  | nil => exact absurd (String.ext hd) hs
  | cons c cs => simp

/-- The search predicate as the claim words it: keep a record exactly
when the search is empty, or the lowercased term occurs in the
lowercase of firstName, middleName (absent treated as empty),
lastName, city, state or status. -/
def keepClaim (search : String) (p : IPatient) : Bool :=
  search == "" ||
  (strIncludes (lowerStr p.firstName) (lowerStr search) ||
   strIncludes (lowerStr (p.middleName.getD "")) (lowerStr search) ||
   strIncludes (lowerStr p.lastName) (lowerStr search) ||
   strIncludes (lowerStr p.city) (lowerStr search) ||
   strIncludes (lowerStr p.state) (lowerStr search) ||
   strIncludes (lowerStr p.status) (lowerStr search))

theorem filterPatients_eq_keepClaim (search : String) (ps : List IPatient) :
    filterPatients search ps = ps.filter (keepClaim search) := by
  by_cases hs : search = ""
  · subst hs
    rw [show filterPatients "" ps = ps by simp [filterPatients]]
    exact (List.filter_eq_self.2 (fun a _ => by simp [keepClaim])).symm
  · have hsb : (search == "") = false := by simp [hs]
    rw [filterPatients, if_neg (by simp [hs])]
    refine List.filter_congr ?_
    intro p _
    unfold matchesSearch keepClaim
    rw [hsb, Bool.false_or]
    cases hmid : p.middleName with
    | some m =>
      simp only [Option.getD_some]
      rw [Bool.or_assoc (strIncludes (lowerStr p.firstName) (lowerStr search)),
        Bool.or_comm (strIncludes (lowerStr p.lastName) (lowerStr search))
          (strIncludes (lowerStr m) (lowerStr search)),
        ← Bool.or_assoc (strIncludes (lowerStr p.firstName) (lowerStr search))]
    | none =>
      simp only [hmid, Option.getD_none, lowerStr_empty,
        strIncludes_empty_hay search hs, Bool.or_false, Bool.false_or]

/-! ### Concrete records and queries used by witnesses and
counterexamples -/

def pa : IPatient := ⟨"1", "a", none, "x", "1990-01-01", "Active", "c", "s", "11111"⟩

def pb : IPatient := ⟨"2", "b", none, "y", "1980-01-01", "Inquiry", "c", "s", "22222"⟩

def pq : IPatient := ⟨"3", "c", some "m", "z", "1970-01-01", "Churned", "d", "t", "33333"⟩

def paUpper : IPatient := ⟨"9", "A", none, "X", "1990-01-01", "ACTIVE", "C", "S", "11111"⟩

def rqEmpty : RawQuery := ⟨none, none, none, none, none⟩

def rqZero : RawQuery := ⟨some "0", some "0", none, none, none⟩

def rqPage5 : RawQuery := ⟨some "5", none, none, none, none⟩

def rqNoHit : RawQuery := ⟨some "3", none, none, none, some "zzz"⟩

def formBob : PatientFormData :=
  ⟨" Bob ", some "", "Ng", "1980-01-01", "Active", "12345 Main St", "C", "S", "11111"⟩

/-! ### The claims -/

/-- C1: For every collection, search term and sort specification, and
every limit at least 1, paginating the filtered-and-sorted sequence
with pages [(page-1)*limit, page*limit) clamped to the available
indices partitions it exactly: the pages concatenated in page order
reproduce the sequence, the page lengths over all valid page numbers
sum to totalRecords, each page occupies its own index interval, and
the index intervals of two distinct pages are disjoint. -/
theorem C1_pagination_partition (records : List IPatient) (search sb so : String)
    (m i j : Nat) (hm : 1 ≤ m)
    (_hi : i < totalPagesNat (filteredSorted records search sb so).length m)
    (_hj : j < totalPagesNat (filteredSorted records search sb so).length m)
    (hij : i < j) :
    ((List.range (totalPagesNat (filteredSorted records search sb so).length m)).map
        (fun k => pageSlice (filteredSorted records search sb so) m (k + 1))).flatten
      = filteredSorted records search sb so
    ∧ ((List.range (totalPagesNat (filteredSorted records search sb so).length m)).map
        (fun k => (pageSlice (filteredSorted records search sb so) m (k + 1)).length)).sum
      = (filteredSorted records search sb so).length
    ∧ (pageSlice (filteredSorted records search sb so) m (i + 1)).length
      = (Finset.Ico (i * m)
          (min ((i + 1) * m) (filteredSorted records search sb so).length)).card
    ∧ Disjoint
        (Finset.Ico (i * m)
          (min ((i + 1) * m) (filteredSorted records search sb so).length))
        (Finset.Ico (j * m)
          (min ((j + 1) * m) (filteredSorted records search sb so).length)) :=
  ⟨pageSlices_flatten m hm _ _ rfl, pageSlices_length_sum m hm _,
   pageSlice_length_card _ m i, pageIdx_disjoint _ m i j hij⟩

/-- Witness for C1 at a concrete collection: three records, limit 2,
pages 1 and 2. -/
theorem C1_pagination_partition_witness :
    (1 ≤ 2 ∧ 0 < totalPagesNat (filteredSorted [pb, pa, pq] "" "name" "asc").length 2
      ∧ 1 < totalPagesNat (filteredSorted [pb, pa, pq] "" "name" "asc").length 2
      ∧ 0 < 1)
    ∧ (((List.range (totalPagesNat (filteredSorted [pb, pa, pq] "" "name" "asc").length 2)).map
          (fun k => pageSlice (filteredSorted [pb, pa, pq] "" "name" "asc") 2 (k + 1))).flatten
        = filteredSorted [pb, pa, pq] "" "name" "asc"
      ∧ ((List.range (totalPagesNat (filteredSorted [pb, pa, pq] "" "name" "asc").length 2)).map
          (fun k => (pageSlice (filteredSorted [pb, pa, pq] "" "name" "asc") 2 (k + 1)).length)).sum
        = (filteredSorted [pb, pa, pq] "" "name" "asc").length
      ∧ (pageSlice (filteredSorted [pb, pa, pq] "" "name" "asc") 2 (0 + 1)).length
        = (Finset.Ico (0 * 2)
            (min ((0 + 1) * 2) (filteredSorted [pb, pa, pq] "" "name" "asc").length)).card
      ∧ Disjoint
          (Finset.Ico (0 * 2)
            (min ((0 + 1) * 2) (filteredSorted [pb, pa, pq] "" "name" "asc").length))
          (Finset.Ico (1 * 2)
            (min ((1 + 1) * 2) (filteredSorted [pb, pa, pq] "" "name" "asc").length))) :=
  ⟨⟨by decide, by decide, by decide, by decide⟩,
   C1_pagination_partition [pb, pa, pq] "" "name" "asc" 2 0 1 (by decide) (by decide)
     (by decide) (by decide)⟩

/-- C2: for every collection and sortBy field, both sort directions
are stable — restricted to the records carrying any one derived key
value, the output equals the input sequence — the output is a
permutation of the input, and the descending output is the reverse of
the ascending output of the reversed input (which is exactly "the
reverse of the ascending output, except that blocks of equal keys keep
their input-internal order"). -/
theorem C2_sort_stable_desc_reverse (sb : String) (records : List IPatient) :
    (∀ k : JSVal,
      (sortPatients sb "asc" records).filter (fun p => decide (sortKey sb p = k))
        = records.filter (fun p => decide (sortKey sb p = k)))
    ∧ (∀ k : JSVal,
      (sortPatients sb "desc" records).filter (fun p => decide (sortKey sb p = k))
        = records.filter (fun p => decide (sortKey sb p = k)))
    ∧ (sortPatients sb "asc" records).Perm records
    ∧ (sortPatients sb "desc" records).Perm records
    ∧ sortPatients sb "desc" records
      = (sortPatients sb "asc" records.reverse).reverse :=
  ⟨fun k => sortPatients_stable sb "asc" k records,
   fun k => sortPatients_stable sb "desc" k records,
   sortPatients_perm sb "asc" records,
   sortPatients_perm sb "desc" records,
   sortPatients_desc_reverse sb records⟩

/-- C9: clicking a column header flips the direction when the field is
already selected and otherwise selects the field ascending, always
resetting the page to 1; a page-size change sets the limit and resets
the page to 1, touching nothing else. -/
theorem C9_sort_and_page_size_transitions (s : ListState) (f : String) (v : Nat) :
    (handleSort s f).currentPage = 1
    ∧ (handleSort s f).itemsPerPage = s.itemsPerPage
    ∧ (handleSort s f).sortField = (if s.sortField == f then s.sortField else f)
    ∧ (handleSort s f).sortDirection
      = (if s.sortField == f
         then (if s.sortDirection = SortDir.asc then SortDir.desc else SortDir.asc)
         else SortDir.asc)
    ∧ (handleItemsPerPageChange s v).currentPage = 1
    ∧ (handleItemsPerPageChange s v).itemsPerPage = v
    ∧ (handleItemsPerPageChange s v).sortField = s.sortField
    ∧ (handleItemsPerPageChange s v).sortDirection = s.sortDirection := by
  unfold handleSort handleItemsPerPageChange
  by_cases h : s.sortField == f <;> simp [h]

/-- C10: `updatePatient` writes exactly the eight whitelisted fields,
so the stored `address` is untouched by an update, while
`createPatient` persists the whole submitted body, including the
`address` the client sends (renamed from the form's `street`). -/
theorem C10_update_address_frame (old : StoredPatient) (b : ApiBody)
    (d : PatientFormData) :
    (updatePatientDoc old b).address = old.address
    ∧ (updatePatientDoc old b).firstName = b.firstName
    ∧ (updatePatientDoc old b).middleName = b.middleName
    ∧ (updatePatientDoc old b).lastName = b.lastName
    ∧ (updatePatientDoc old b).dob = b.dob
    ∧ (updatePatientDoc old b).status = b.status
    ∧ (updatePatientDoc old b).city = b.city
    ∧ (updatePatientDoc old b).state = b.state
    ∧ (updatePatientDoc old b).zipCode = b.zipCode
    ∧ (createdDoc b).address = b.address
    ∧ (submitPayload d).address = d.street :=
  ⟨rfl, rfl, rfl, rfl, rfl, rfl, rfl, rfl, rfl, rfl, rfl⟩

theorem sortKey_name (p : IPatient) :
    sortKey "name" p
      = JSVal.str (lowerStr (p.firstName ++ " " ++ (p.middleName.getD "") ++ " "
          ++ p.lastName)) := rfl

theorem sortKey_status_eq (p : IPatient) :
    sortKey "status" p = JSVal.str (lowerStr p.status) := rfl

theorem sortKey_location (p : IPatient) :
    sortKey "location" p
      = JSVal.str (lowerStr (p.city ++ " " ++ p.state ++ " " ++ p.zipCode)) := rfl

/-- C3: with valid parameters, a requested page beyond a positive
totalPages makes the List operation answer the 400 ValidationError
(computed from the full filtered/sorted/paginated result), while a
request whose query matches nothing (totalPages = 0) succeeds for any
page, yielding the empty page with accurate metadata — the engine
itself never fails. -/
theorem C3_page_beyond_error_engine_total (records1 : List IPatient) (q1 : RawQuery)
    (records2 : List IPatient) (q2 : RawQuery)
    (hp1 : 1 ≤ parseIntOr q1.page 1) (hl11 : 1 ≤ parseIntOr q1.limit 10)
    (hl12 : parseIntOr q1.limit 10 ≤ 100)
    (hbeyond : totalPagesNat (filteredSorted records1 (strOr q1.search "")
        (strOr q1.sortBy "firstName") (strOr q1.sortOrder "asc")).length
        (parseIntOr q1.limit 10).toNat < (parseIntOr q1.page 1).toNat)
    (hpos : 0 < totalPagesNat (filteredSorted records1 (strOr q1.search "")
        (strOr q1.sortBy "firstName") (strOr q1.sortOrder "asc")).length
        (parseIntOr q1.limit 10).toNat)
    (hp2 : 1 ≤ parseIntOr q2.page 1) (hl21 : 1 ≤ parseIntOr q2.limit 10)
    (hl22 : parseIntOr q2.limit 10 ≤ 100)
    (hzero : totalPagesNat (filteredSorted records2 (strOr q2.search "")
        (strOr q2.sortBy "firstName") (strOr q2.sortOrder "asc")).length
        (parseIntOr q2.limit 10).toNat = 0) :
    getAllPatients records1 q1 = ListResult.error 400 "Page number exceeds total pages"
    ∧ getAllPatients records2 q2 = ListResult.ok []
        ⟨(parseIntOr q2.page 1).toNat, 0, 0, (parseIntOr q2.limit 10).toNat, false,
          decide (1 < (parseIntOr q2.page 1).toNat)⟩ := by
  constructor
  · rw [getAllPatients_valid_eq records1 q1 hp1 hl11 hl12, if_pos ⟨hbeyond, hpos⟩]
  · have hm2 : 1 ≤ (parseIntOr q2.limit 10).toNat := by omega
    have hn : (filteredSorted records2 (strOr q2.search "") (strOr q2.sortBy "firstName")
        (strOr q2.sortOrder "asc")).length = 0 :=
      (totalPagesNat_eq_zero_iff _ _ hm2).1 hzero
    have hnil : filteredSorted records2 (strOr q2.search "") (strOr q2.sortBy "firstName")
        (strOr q2.sortOrder "asc") = [] := List.eq_nil_of_length_eq_zero hn
    rw [getAllPatients_valid_eq records2 q2 hp2 hl21 hl22,
      if_neg (by rw [hzero]; omega), hnil]
    simp [pageSlice, totalPagesNat_zero _ hm2]

/-- Witness for C3: page 5 of a one-page collection errors; a search
matching nothing succeeds on page 3 with empty page and zeroed
metadata. -/
theorem C3_page_beyond_error_engine_total_witness :
    (1 ≤ parseIntOr rqPage5.page 1 ∧ 1 ≤ parseIntOr rqPage5.limit 10
      ∧ parseIntOr rqPage5.limit 10 ≤ 100
      ∧ totalPagesNat (filteredSorted [pb, pa] (strOr rqPage5.search "")
          (strOr rqPage5.sortBy "firstName") (strOr rqPage5.sortOrder "asc")).length
          (parseIntOr rqPage5.limit 10).toNat < (parseIntOr rqPage5.page 1).toNat
      ∧ 0 < totalPagesNat (filteredSorted [pb, pa] (strOr rqPage5.search "")
          (strOr rqPage5.sortBy "firstName") (strOr rqPage5.sortOrder "asc")).length
          (parseIntOr rqPage5.limit 10).toNat
      ∧ 1 ≤ parseIntOr rqNoHit.page 1 ∧ 1 ≤ parseIntOr rqNoHit.limit 10
      ∧ parseIntOr rqNoHit.limit 10 ≤ 100
      ∧ totalPagesNat (filteredSorted [pb, pa] (strOr rqNoHit.search "")
          (strOr rqNoHit.sortBy "firstName") (strOr rqNoHit.sortOrder "asc")).length
          (parseIntOr rqNoHit.limit 10).toNat = 0)
    ∧ (getAllPatients [pb, pa] rqPage5
        = ListResult.error 400 "Page number exceeds total pages"
      ∧ getAllPatients [pb, pa] rqNoHit = ListResult.ok []
          ⟨(parseIntOr rqNoHit.page 1).toNat, 0, 0, (parseIntOr rqNoHit.limit 10).toNat,
            false, decide (1 < (parseIntOr rqNoHit.page 1).toNat)⟩) :=
  ⟨⟨by decide, by decide, by decide, by decide, by decide, by decide, by decide,
    by decide, by decide⟩,
   C3_page_beyond_error_engine_total [pb, pa] rqPage5 [pb, pa] rqNoHit (by decide)
     (by decide) (by decide) (by decide) (by decide) (by decide) (by decide) (by decide)
     (by decide)⟩

/-- C4: the filter keeps a record exactly as the specification words
it — the non-empty lowercased term occurs in the lowercase of
firstName, middleName (absent treated as empty), lastName, city,
state or status, and an empty search keeps every record — and a term
matching no record yields the empty page with totalPatients = 0 and
totalPages = 0. -/
theorem C4_search_filter_semantics (search : String) (ps records : List IPatient)
    (q : RawQuery) (hp : 1 ≤ parseIntOr q.page 1) (hl1 : 1 ≤ parseIntOr q.limit 10)
    (hl2 : parseIntOr q.limit 10 ≤ 100)
    (hnone : filterPatients (strOr q.search "") records = []) :
    filterPatients search ps = ps.filter (keepClaim search)
    ∧ resPatients (getAllPatients records q) = some []
    ∧ (resPagination (getAllPatients records q)).map PaginationInfo.totalPatients = some 0
    ∧ (resPagination (getAllPatients records q)).map PaginationInfo.totalPages = some 0 := by
  have hm : 1 ≤ (parseIntOr q.limit 10).toNat := by omega
  have hnil : filteredSorted records (strOr q.search "") (strOr q.sortBy "firstName")
      (strOr q.sortOrder "asc") = [] := by
    unfold filteredSorted
    rw [hnone]
    rfl
  have hres := getAllPatients_valid_eq records q hp hl1 hl2
  rw [hnil] at hres
  simp only [List.length_nil, totalPagesNat_zero _ hm, pageSlice, List.drop_nil,
    List.take_nil, Nat.lt_irrefl, and_false, if_false] at hres
  refine ⟨filterPatients_eq_keepClaim search ps, ?_, ?_, ?_⟩ <;> rw [hres] <;> rfl

/-- Witness for C4: the term "active" filters the sample records; the
term "zzz" matches nothing and yields the empty page. -/
theorem C4_search_filter_semantics_witness :
    (1 ≤ parseIntOr rqNoHit.page 1 ∧ 1 ≤ parseIntOr rqNoHit.limit 10
      ∧ parseIntOr rqNoHit.limit 10 ≤ 100
      ∧ filterPatients (strOr rqNoHit.search "") [pb, pa] = [])
    ∧ (filterPatients "active" [pb, pa] = [pb, pa].filter (keepClaim "active")
      ∧ resPatients (getAllPatients [pb, pa] rqNoHit) = some []
      ∧ (resPagination (getAllPatients [pb, pa] rqNoHit)).map
          PaginationInfo.totalPatients = some 0
      ∧ (resPagination (getAllPatients [pb, pa] rqNoHit)).map
          PaginationInfo.totalPages = some 0) :=
  ⟨⟨by decide, by decide, by decide, by decide⟩,
   C4_search_filter_semantics "active" [pb, pa] [pb, pa] rqNoHit (by decide) (by decide)
     (by decide) (by decide)⟩

/-- C5 as stated is false on the code: with sortBy omitted the
controller defaults to "firstName" and sorts by it, so a List request
without sortBy does not return the filtered records in their original
relative order — here input order [pb, pa] comes back as [pa, pb]. -/
theorem C5_default_sort_cex :
    resPatients (getAllPatients [pb, pa] rqEmpty) = some [pa, pb]
    ∧ resPatients (getAllPatients [pb, pa] rqEmpty) ≠ some [pb, pa] :=
  ⟨by decide, by decide⟩

/-- C5 amended: an omitted sortBy defaults to "firstName" (the request
behaves exactly as if sortBy=firstName had been supplied), and only an
unrecognized sortBy that names no record attribute makes every pair of
records compare equal, leaving the filtered records in their original
relative order. -/
theorem C5_default_sortBy_amended (records : List IPatient) (q : RawQuery)
    (s ord : String) (l : List IPatient) (hq : q.sortBy = none)
    (hs : s ∉ ["name", "dob", "status", "location", "firstName", "middleName",
      "lastName", "city", "state", "zipCode", "id"]) :
    getAllPatients records q
      = getAllPatients records ⟨q.page, q.limit, some "firstName", q.sortOrder, q.search⟩
    ∧ sortPatients s ord l = l := by
  constructor
  · unfold getAllPatients
    rw [hq]
    rfl
  · exact sortPatients_unknown_id s ord l hs

/-- Witness for C5 amended at the empty raw query and an unrecognized
sort field. -/
theorem C5_default_sortBy_amended_witness :
    (rqEmpty.sortBy = none
      ∧ "zzz" ∉ ["name", "dob", "status", "location", "firstName", "middleName",
          "lastName", "city", "state", "zipCode", "id"])
    ∧ (getAllPatients [pb, pa] rqEmpty
        = getAllPatients [pb, pa]
            ⟨rqEmpty.page, rqEmpty.limit, some "firstName", rqEmpty.sortOrder,
              rqEmpty.search⟩
      ∧ sortPatients "zzz" "asc" [pb, pa] = [pb, pa]) :=
  ⟨⟨rfl, by decide⟩,
   C5_default_sortBy_amended [pb, pa] rqEmpty "zzz" "asc" [pb, pa] rfl (by decide)⟩

/-- C6 as stated is false on the code: a supplied page or limit that
parses to 0 is falsy in the `parseInt(x) || default` idiom, so it is
silently replaced by the default (1 resp. 10) and the request
succeeds, rather than being rejected with a ValidationError. -/
theorem C6_zero_param_cex :
    parseIntOr (some "0") 1 = 1
    ∧ parseIntOr (some "0") 10 = 10
    ∧ getAllPatients [] rqZero = ListResult.ok [] ⟨1, 0, 0, 10, false, false⟩ :=
  ⟨by decide, by decide, by decide⟩

/-- C6 amended: page and limit parse as integers with a parse failure
or a parse result of 0 falling back to the defaults 1 and 10; the List
operation answers the page ValidationError exactly when the resulting
page is below 1 (a negative parse), and the limit ValidationError
exactly when the page passed and the resulting limit is outside
[1, 100]. -/
theorem C6_param_validation_amended (records : List IPatient) (q : RawQuery) :
    (getAllPatients records q = ListResult.error 400 "Page must be greater than 0"
      ↔ parseIntOr q.page 1 < 1)
    ∧ (getAllPatients records q = ListResult.error 400 "Limit must be between 1 and 100"
      ↔ (1 ≤ parseIntOr q.page 1
        ∧ (parseIntOr q.limit 10 < 1 ∨ 100 < parseIntOr q.limit 10)))
    ∧ parseIntOr none 1 = 1 ∧ parseIntOr none 10 = 10 := by
  refine ⟨?_, ?_, rfl, rfl⟩ <;> by_cases h1 : parseIntOr q.page 1 < 1
  · have e : getAllPatients records q
        = ListResult.error 400 "Page must be greater than 0" := by
      unfold getAllPatients
      rw [if_pos h1]
    rw [e]
    simp [h1]
  · by_cases h2 : parseIntOr q.limit 10 < 1 ∨ 100 < parseIntOr q.limit 10
    · have e : getAllPatients records q
          = ListResult.error 400 "Limit must be between 1 and 100" := by
        unfold getAllPatients
        rw [if_neg h1, if_pos h2]
      rw [e]
      exact iff_of_false (by decide) h1
    · rw [getAllPatients_valid_eq records q (by omega) (by omega) (by omega)]
      refine iff_of_false ?_ h1
      by_cases h3 : totalPagesNat (filteredSorted records (strOr q.search "")
            (strOr q.sortBy "firstName") (strOr q.sortOrder "asc")).length
            (parseIntOr q.limit 10).toNat < (parseIntOr q.page 1).toNat
          ∧ 0 < totalPagesNat (filteredSorted records (strOr q.search "")
            (strOr q.sortBy "firstName") (strOr q.sortOrder "asc")).length
            (parseIntOr q.limit 10).toNat
      · rw [if_pos h3]
        decide
      · rw [if_neg h3]
        simp
  · have e : getAllPatients records q
        = ListResult.error 400 "Page must be greater than 0" := by
      unfold getAllPatients
      rw [if_pos h1]
    rw [e]
    exact iff_of_false (by decide) (fun hc => absurd hc.1 (by omega))
  · by_cases h2 : parseIntOr q.limit 10 < 1 ∨ 100 < parseIntOr q.limit 10
    · have e : getAllPatients records q
          = ListResult.error 400 "Limit must be between 1 and 100" := by
        unfold getAllPatients
        rw [if_neg h1, if_pos h2]
      rw [e]
      exact iff_of_true rfl ⟨by omega, h2⟩
    · rw [getAllPatients_valid_eq records q (by omega) (by omega) (by omega)]
      refine iff_of_false ?_ (fun hc => absurd hc.2 h2)
      by_cases h3 : totalPagesNat (filteredSorted records (strOr q.search "")
            (strOr q.sortBy "firstName") (strOr q.sortOrder "asc")).length
            (parseIntOr q.limit 10).toNat < (parseIntOr q.page 1).toNat
          ∧ 0 < totalPagesNat (filteredSorted records (strOr q.search "")
            (strOr q.sortBy "firstName") (strOr q.sortOrder "asc")).length
            (parseIntOr q.limit 10).toNat
      · rw [if_pos h3]
        decide
      · rw [if_neg h3]
        simp

/-- C7 as stated is false on the code: for a record without middle
name the naive join leaves a double space in the name key — it is not
collapsed to a single space. -/
theorem C7_name_key_cex :
    sortKey "name" pa = JSVal.str "a  x"
    ∧ ("a  x" : String) ≠ "a x" :=
  ⟨by decide, by decide⟩

/-- C7 amended: the name key is "firstName middleName lastName"
lowercased with an absent middleName replaced by the empty string,
leaving a double space (not collapsed); and the name, status and
location keys are case-folded — records whose fields agree up to case
get equal derived keys. -/
theorem C7_name_key_amended (p q1 q2 : IPatient) (hmid : p.middleName = none)
    (hf : lowerStr q1.firstName = lowerStr q2.firstName)
    (hm : lowerStr (q1.middleName.getD "") = lowerStr (q2.middleName.getD ""))
    (hl : lowerStr q1.lastName = lowerStr q2.lastName)
    (hst : lowerStr q1.status = lowerStr q2.status)
    (hci : lowerStr q1.city = lowerStr q2.city)
    (hsa : lowerStr q1.state = lowerStr q2.state)
    (hz : lowerStr q1.zipCode = lowerStr q2.zipCode) :
    sortKey "name" p = JSVal.str (lowerStr (p.firstName ++ "  " ++ p.lastName))
    ∧ sortKey "name" q1 = sortKey "name" q2
    ∧ sortKey "status" q1 = sortKey "status" q2
    ∧ sortKey "location" q1 = sortKey "location" q2 := by
  refine ⟨?_, ?_, ?_, ?_⟩
  · rw [sortKey_name, hmid, Option.getD_none,
      show p.firstName ++ " " ++ "" ++ " " ++ p.lastName
          = p.firstName ++ "  " ++ p.lastName by
        apply String.ext
        simp [String.data_append, data_empty_string,
          show (" " : String).data = [' '] from rfl,
          show ("  " : String).data = [' ', ' '] from rfl]]
  · rw [sortKey_name, sortKey_name]
    simp only [lowerStr_append]
    rw [hf, hm, hl]
  · rw [sortKey_status_eq, sortKey_status_eq, hst]
  · rw [sortKey_location, sortKey_location]
    simp only [lowerStr_append]
    rw [hci, hsa, hz]

/-- Witness for C7 amended: `pa` has no middle name; `paUpper` is `pa`
with upper-cased fields. -/
theorem C7_name_key_amended_witness :
    (pa.middleName = none
      ∧ lowerStr pa.firstName = lowerStr paUpper.firstName
      ∧ lowerStr (pa.middleName.getD "") = lowerStr (paUpper.middleName.getD "")
      ∧ lowerStr pa.lastName = lowerStr paUpper.lastName
      ∧ lowerStr pa.status = lowerStr paUpper.status
      ∧ lowerStr pa.city = lowerStr paUpper.city
      ∧ lowerStr pa.state = lowerStr paUpper.state
      ∧ lowerStr pa.zipCode = lowerStr paUpper.zipCode)
    ∧ (sortKey "name" pa = JSVal.str (lowerStr (pa.firstName ++ "  " ++ pa.lastName))
      ∧ sortKey "name" pa = sortKey "name" paUpper
      ∧ sortKey "status" pa = sortKey "status" paUpper
      ∧ sortKey "location" pa = sortKey "location" paUpper) :=
  ⟨⟨rfl, by decide, by decide, by decide, by decide, by decide, by decide, by decide⟩,
   C7_name_key_amended pa pa paUpper rfl (by decide) (by decide) (by decide) (by decide)
     (by decide) (by decide) (by decide)⟩

/-- C8: the form's `onSubmit` sends the raw form values (with `street`
renamed to `address`) without calling the sanitizer, so a field with
leading/trailing whitespace reaches the List Controller untrimmed —
although `PatientValidator.sanitizeFormData` would trim it and the
validation module documents sanitization before submission. -/
theorem C8_submit_unsanitized :
    (submitPayload formBob).firstName = " Bob "
    ∧ (submitPayload formBob).address = formBob.street
    ∧ trimStr " Bob " = "Bob"
    ∧ (sanitizeFormData formBob).firstName = "Bob"
    ∧ submitPayload (sanitizeFormData formBob) ≠ submitPayload formBob :=
  ⟨by decide, by decide, by decide, by decide, by decide⟩

end PatientDashboard
